import Mathlib

/-!
Verification of the AI music compositor pipeline
(file music_compositor_agent_langgraph.ipynb): a linear LangGraph workflow of
four LLM stages (melody, harmony, rhythm, style) followed by a deterministic
MIDI encoder, the function midi_converter.  The Python stage functions, the
scale and chord dictionaries, the scale-selection heuristic and the
note/chord construction are embedded as executable Lean definitions; the
process-global random module is modelled by an explicit draw oracle
g : Nat -> Nat consumed at successive positions, and the external chat model
by an oracle llm : String -> String.  A Python KeyError on a dict access is
modelled by Except String, carrying the missing key.
-/

set_option autoImplicit false

namespace MusicCompositor

/-- Keys of the workflow state dict.  The TypedDict MusicState declares
musician_input, melody, harmony, rhythm, style, composition and midi_file;
scale and duration are the extra keys dereferenced by the executed variant
of melody_generator recorded in the notebook traceback. -/
inductive Key where
  | musician_input
  | style
  | melody
  | harmony
  | rhythm
  | composition
  | midi_file
  | scale
  | duration
deriving DecidableEq

/-- The workflow state: a partial mapping from keys to strings, as the
Python dict holds string values for every key used by the pipeline. -/
def MState : Type := Key → Option String

/-- Merge a single-key stage update into the state, as the LangGraph engine
merges the dict returned by a node into the running state. -/
def setK (k : Key) (v : String) (s : MState) : MState :=
  fun k' => if k' = k then some v else s k'

/-- Stage melody_generator as saved in the source cell: it reads
state musician_input, issues one chat call with the melody template, and
writes melody. -/
def melody_generator (llm : String → String) (s : MState) :
    Except String (Key × String) :=
  match s Key.musician_input with
  | none => Except.error "musician_input"
  | some mi =>
      Except.ok (Key.melody,
        llm ("Create a melody that reflects the sentiment and style of this input: "
          ++ mi ++ ". Format it in music21 notation."))

/-- The melody_generator variant the notebook actually executed (recorded
in the traceback of the run cell): it dereferences state scale and
state duration, keys never declared in MusicState nor supplied by the
caller, producing the recorded KeyError on scale. -/
def melody_generator_executed (llm : String → String) (s : MState) :
    Except String (Key × String) :=
  match s Key.scale with
  | none => Except.error "scale"
  | some sc =>
      match s Key.duration with
      | none => Except.error "duration"
      | some du =>
          Except.ok (Key.melody,
            llm ("Using the " ++ sc ++ " scale, compose a melody of " ++ du
              ++ " bars. Please represent the melody in music21 format."))

/-- Stage harmony_creator: reads melody, writes harmony. -/
def harmony_creator (llm : String → String) (s : MState) :
    Except String (Key × String) :=
  match s Key.melody with
  | none => Except.error "melody"
  | some m =>
      Except.ok (Key.harmony,
        llm ("Create harmony for this melody: " ++ m
          ++ ". Represent it as a string of chords in music21 format."))

/-- Stage rhythm_analyzer: reads melody and harmony, writes rhythm. -/
def rhythm_analyzer (llm : String → String) (s : MState) :
    Except String (Key × String) :=
  match s Key.melody with
  | none => Except.error "melody"
  | some m =>
      match s Key.harmony with
      | none => Except.error "harmony"
      | some h =>
          Except.ok (Key.rhythm,
            llm ("Analyze and suggest a rhythm for this melody and harmony: "
              ++ m ++ ", " ++ h
              ++ ". Represent it as a string of durations in music21 format."))

/-- Stage style_adapter: reads style, melody, harmony, rhythm (in the
evaluation order of the Python dict literal), writes composition. -/
def style_adapter (llm : String → String) (s : MState) :
    Except String (Key × String) :=
  match s Key.style with
  | none => Except.error "style"
  | some st =>
      match s Key.melody with
      | none => Except.error "melody"
      | some m =>
          match s Key.harmony with
          | none => Except.error "harmony"
          | some h =>
              match s Key.rhythm with
              | none => Except.error "rhythm"
              | some r =>
                  Except.ok (Key.composition,
                    llm ("Adapt this composition to the " ++ st
                      ++ " style: Melody: " ++ m ++ ", Harmony: " ++ h
                      ++ ", Rhythm: " ++ r
                      ++ ". Provide the result in music21 format."))

/-- The scales dictionary of midi_converter, in insertion order. -/
def scales : List (String × List String) :=
  [("C major", ["C", "D", "E", "F", "G", "A", "B"]),
   ("C minor", ["C", "D", "Eb", "F", "G", "Ab", "Bb"]),
   ("C harmonic minor", ["C", "D", "Eb", "F", "G", "Ab", "B"]),
   ("C melodic minor", ["C", "D", "Eb", "F", "G", "A", "B"]),
   ("C dorian", ["C", "D", "Eb", "F", "G", "A", "Bb"]),
   ("C phrygian", ["C", "Db", "Eb", "F", "G", "Ab", "Bb"]),
   ("C lydian", ["C", "D", "E", "F#", "G", "A", "B"]),
   ("C mixolydian", ["C", "D", "E", "F", "G", "A", "Bb"]),
   ("C locrian", ["C", "Db", "Eb", "F", "Gb", "Ab", "Bb"]),
   ("C whole tone", ["C", "D", "E", "F#", "G#", "A#"]),
   ("C diminished", ["C", "D", "Eb", "F", "Gb", "Ab", "A", "B"])]

/-- The chords dictionary of midi_converter, in insertion order. -/
def chords : List (String × List String) :=
  [("C major", ["C4", "E4", "G4"]),
   ("C minor", ["C4", "Eb4", "G4"]),
   ("C diminished", ["C4", "Eb4", "Gb4"]),
   ("C augmented", ["C4", "E4", "G#4"]),
   ("C dominant 7th", ["C4", "E4", "G4", "Bb4"]),
   ("C major 7th", ["C4", "E4", "G4", "B4"]),
   ("C minor 7th", ["C4", "Eb4", "G4", "Bb4"]),
   ("C half-diminished 7th", ["C4", "Eb4", "Gb4", "Bb4"]),
   ("C fully diminished 7th", ["C4", "Eb4", "Gb4", "A4"])]

/-- Python dict lookup, returning none where Python raises KeyError. -/
def lookupTable (t : List (String × List String)) (k : String) :
    Option (List String) :=
  match t with
  | [] => none
  | (k', v) :: rest => if k = k' then some v else lookupTable rest k

/-- Model of random.choice: the process-global generator, read as the draw
oracle g at position pos, picks an index into the list. -/
def random_choice (g : Nat → Nat) (pos : Nat) (xs : List String) : String :=
  xs.getD (g pos % xs.length) ""

/-- One music21 Note: a pitch string (pitch class ++ octave digit) and a
duration in quarter notes. -/
structure MNote where
  pitch : String
  quarterLength : Nat
deriving DecidableEq

/-- One music21 Chord: its pitch strings and its duration. -/
structure MChord where
  pitches : List String
  quarterLength : Nat
deriving DecidableEq

/-- The music21 Score assembled by midi_converter: the text expression
holding state composition, the melody part, the harmony part and the
metronome mark. -/
structure Score where
  description : String
  melody : List MNote
  harmony : List MChord
  tempo : Nat
deriving DecidableEq

/-- Function create_melody of midi_converter: the given number of notes,
each the concatenation of a uniformly drawn pitch class of the scale with
octave digit 4, each of quarterLength 1.  Draws are consumed at positions
pos, pos+1, ... of the oracle. -/
def create_melody (scale : List String) (duration : Nat) (g : Nat → Nat)
    (pos : Nat) : List MNote :=
  (List.range duration).map fun i =>
    { pitch := random_choice g (pos + i) scale ++ "4", quarterLength := 1 }

/-- Function create_chord_progression of midi_converter: the given number
of chords, each drawn uniformly from the whole chord table by name, each of
quarterLength 1. -/
def create_chord_progression (duration : Nat) (g : Nat → Nat) (pos : Nat) :
    List MChord :=
  (List.range duration).map fun i =>
    { pitches :=
        (lookupTable chords
          (random_choice g (pos + i) (chords.map Prod.fst))).getD [],
      quarterLength := 1 }

/-- ASCII model of the Python str.lower method on one character. -/
def lowerChar (c : Char) : Char :=
  if 65 ≤ c.toNat ∧ c.toNat ≤ 90 then Char.ofNat (c.toNat + 32) else c

/-- Model of the Python str.lower method over the characters of a string. -/
def lowerStr (s : String) : String :=
  String.mk (s.data.map lowerChar)

/-- Does the pattern occur at the head of the list? -/
def leadsList : List Char → List Char → Bool
  | [], _ => true
  | _ :: _, [] => false
  | a :: as, b :: bs => a == b && leadsList as bs

/-- Python substring membership on character lists: a contiguous-substring
test. -/
def hasSub (pat : List Char) : List Char → Bool
  | [] => pat.isEmpty
  | c :: t => leadsList pat (c :: t) || hasSub pat t

/-- Python substring membership on strings. -/
def strContains (s pat : String) : Bool :=
  hasSub pat.data s.data

/-- The scale-selection branch of midi_converter: lower-case the musician
input; if it contains the substring minor, select scale name C minor; else
if it contains major, select C major; else draw one scale name from the
full table.  Returns the selected name together with the next unused oracle
position. -/
def selectScale (input : String) (g : Nat → Nat) : String × Nat :=
  if strContains (lowerStr input) "minor" then ("C minor", 0)
  else if strContains (lowerStr input) "major" then ("C major", 0)
  else (random_choice g 0 (scales.map Prod.fst), 1)

/-- The name used by midi_converter for the final-beat chord lookup: the
first two whitespace-separated words of the scale name, joined by one
space. -/
def finalChordName (scale_name : String) : String :=
  (((scale_name.data.splitOn ' ').map String.mk).getD 0 "") ++ " "
    ++ (((scale_name.data.splitOn ' ').map String.mk).getD 1 "")

/-- The straight-line body of midi_converter once both dict reads have
succeeded: select a scale, build the 7 sampled melody notes plus the final
root note, the 7 sampled chords plus the final chord looked up under
finalChordName, and assemble the score with the hard-coded metronome mark
of 60. -/
def convert_core (comp mi : String) (g : Nat → Nat) : Except String Score :=
  match lookupTable scales (selectScale mi g).1 with
  | none => Except.error (selectScale mi g).1
  | some scale =>
      match lookupTable chords (finalChordName (selectScale mi g).1) with
      | none => Except.error (finalChordName (selectScale mi g).1)
      | some fc =>
          Except.ok
            { description := comp
              melody := create_melody scale 7 g (selectScale mi g).2
                ++ [{ pitch := scale.headD "" ++ "4", quarterLength := 1 }]
              harmony := create_chord_progression 7 g ((selectScale mi g).2 + 7)
                ++ [{ pitches := fc, quarterLength := 1 }]
              tempo := 60 }

/-- Function midi_converter as the deterministic encoder: it reads
state composition (for the text expression) and state musician_input and
runs convert_core on them.  Dict accesses that Python would fault on with
KeyError return an error carrying the missing key. -/
def midi_converter (s : MState) (g : Nat → Nat) : Except String Score :=
  match s Key.composition with
  | none => Except.error "composition"
  | some comp =>
      match s Key.musician_input with
      | none => Except.error "musician_input"
      | some mi => convert_core comp mi g

/-- The midi_converter node as seen by the engine: on success it writes the
temporary file path under midi_file; the path is the name produced by
tempfile.NamedTemporaryFile, supplied here as tmp. -/
def midi_stage (tmp : String) (s : MState) (g : Nat → Nat) :
    Except String (Key × String) :=
  match midi_converter s g with
  | Except.error e => Except.error e
  | Except.ok _ => Except.ok (Key.midi_file, tmp)

/-- The compiled linear workflow melody_generator, harmony_creator,
rhythm_analyzer, style_adapter, midi_converter, parametrised by the first
node so that both the saved and the executed variant of melody_generator
can be run.  On failure it reports the failing node name, the missing dict
key, and how many external chat calls had already been issued before the
failure (each successful LLM stage issues exactly one; a KeyError inside a
stage fires while the call arguments are being evaluated, before that
stage issues its own call). -/
def runPipelineWith
    (mg : (String → String) → MState → Except String (Key × String))
    (llm : String → String) (g : Nat → Nat) (tmp : String) (s : MState) :
    Except (String × String × Nat) MState :=
  match mg llm s with
  | Except.error e => Except.error ("melody_generator", e, 0)
  | Except.ok (k1, v1) =>
      match harmony_creator llm (setK k1 v1 s) with
      | Except.error e => Except.error ("harmony_creator", e, 1)
      | Except.ok (k2, v2) =>
          match rhythm_analyzer llm (setK k2 v2 (setK k1 v1 s)) with
          | Except.error e => Except.error ("rhythm_analyzer", e, 2)
          | Except.ok (k3, v3) =>
              match style_adapter llm (setK k3 v3 (setK k2 v2 (setK k1 v1 s))) with
              | Except.error e => Except.error ("style_adapter", e, 3)
              | Except.ok (k4, v4) =>
                  match midi_stage tmp
                      (setK k4 v4 (setK k3 v3 (setK k2 v2 (setK k1 v1 s)))) g with
                  | Except.error e => Except.error ("midi_converter", e, 4)
                  | Except.ok (k5, v5) =>
                      Except.ok
                        (setK k5 v5
                          (setK k4 v4 (setK k3 v3 (setK k2 v2 (setK k1 v1 s)))))

/-- The workflow as saved in the notebook source. -/
def runPipeline : (String → String) → (Nat → Nat) → String → MState →
    Except (String × String × Nat) MState :=
  runPipelineWith melody_generator

/-- The workflow as executed in the recorded notebook run (with the
variant of melody_generator that reads scale and duration). -/
def runPipelineExecuted : (String → String) → (Nat → Nat) → String → MState →
    Except (String × String × Nat) MState :=
  runPipelineWith melody_generator_executed

/-- Initial state supplying only musician_input (no style). -/
def s_noStyle : MState := fun k =>
  match k with
  | Key.musician_input => some "Create a happy piece"
  | _ => none

/-- The initial state of the pre-flight test in the specification:
musician input and style present, no scale key. -/
def s_claimExample : MState := fun k =>
  match k with
  | Key.musician_input => some "Create a happy piece"
  | Key.style => some "Baroque"
  | _ => none

/-- Encoder-level state whose musician input mentions neither minor nor
major, so scale selection takes the random branch. -/
def s_plain : MState := fun k =>
  match k with
  | Key.musician_input => some "Play something for me"
  | Key.composition => some "a composition"
  | _ => none

/-- Encoder-level state for the C minor test input of the specification. -/
def s_cminor : MState := fun k =>
  match k with
  | Key.musician_input => some "Create a happy piece in C minor"
  | Key.composition => some "a composition"
  | _ => none

/-- Pipeline-level initial state with both required inputs present. -/
def s_run : MState := fun k =>
  match k with
  | Key.musician_input => some "Create a happy piece in C minor"
  | Key.style => some "Romantic"
  | _ => none

/-- The all-zero draw oracle. -/
def gzero : Nat → Nat := fun _ => 0

/-- A draw oracle agreeing with gzero on positions below 15 only. -/
def gshift : Nat → Nat := fun i => if i < 15 then 0 else 3

/-- A fixed stand-in for the external chat model. -/
def llm_fixed : String → String := fun _ => "generated"

/-- The final state of the concrete pipeline run used as a witness. -/
def out_run : MState :=
  setK Key.midi_file "t.mid"
    (setK Key.composition "generated"
      (setK Key.rhythm "generated"
        (setK Key.harmony "generated"
          (setK Key.melody "generated" s_run))))

/-- The score produced by midi_converter on s_cminor with the all-zero
oracle: seven sampled root notes plus the final root note, seven sampled
C-major chords plus the final C-minor chord, tempo 60. -/
def score_cminor : Score :=
  { description := "a composition"
    melody :=
      [{ pitch := "C4", quarterLength := 1 }, { pitch := "C4", quarterLength := 1 },
       { pitch := "C4", quarterLength := 1 }, { pitch := "C4", quarterLength := 1 },
       { pitch := "C4", quarterLength := 1 }, { pitch := "C4", quarterLength := 1 },
       { pitch := "C4", quarterLength := 1 }, { pitch := "C4", quarterLength := 1 }]
    harmony :=
      [{ pitches := ["C4", "E4", "G4"], quarterLength := 1 },
       { pitches := ["C4", "E4", "G4"], quarterLength := 1 },
       { pitches := ["C4", "E4", "G4"], quarterLength := 1 },
       { pitches := ["C4", "E4", "G4"], quarterLength := 1 },
       { pitches := ["C4", "E4", "G4"], quarterLength := 1 },
       { pitches := ["C4", "E4", "G4"], quarterLength := 1 },
       { pitches := ["C4", "E4", "G4"], quarterLength := 1 },
       { pitches := ["C4", "Eb4", "G4"], quarterLength := 1 }]
    tempo := 60 }

/-! Helper lemmas shared by the claim theorems. -/

/-- A successful table lookup returns an entry of the table. -/
theorem lookupTable_mem {t : List (String × List String)} {k : String}
    {v : List String} (h : lookupTable t k = some v) : (k, v) ∈ t := by
  induction t with
  | nil => simp [lookupTable] at h
  | cons p rest ih =>
      obtain ⟨k', v'⟩ := p
      by_cases hk : k = k'
      · subst hk
        simp [lookupTable] at h
        simp [h]
      · simp [lookupTable, hk] at h
        exact List.mem_cons_of_mem _ (ih h)

/-- The value drawn by random_choice from a nonempty list is a member of
the list. -/
theorem random_choice_mem (g : Nat → Nat) (pos : Nat) {xs : List String}
    (h : xs ≠ []) : random_choice g pos xs ∈ xs := by
  have hl : 0 < xs.length := List.length_pos.mpr h
  have hi : g pos % xs.length < xs.length := Nat.mod_lt _ hl
  rw [random_choice, List.getD_eq_getElem _ _ hi]
  exact List.getElem_mem hi

/-- The default head of a nonempty list is a member of the list. -/
theorem headD_mem {xs : List String} (d : String) (h : xs ≠ []) :
    xs.headD d ∈ xs := by
  cases xs with
  | nil => exact absurd rfl h
  | cons a t => simp [List.headD]

/-- Every scale of the table is nonempty. -/
theorem scales_values_nonempty : ∀ p ∈ scales, p.2 ≠ [] := by decide

/-- Every scale of the table begins with pitch class C. -/
theorem scales_head_C : ∀ p ∈ scales, p.2.headD "" = "C" := by decide

/-- Every chord of the table begins with pitch C4. -/
theorem chords_head_C4 : ∀ p ∈ chords, p.2.headD "" = "C4" := by decide

/-- The list of scale names is nonempty. -/
theorem scales_keys_nonempty : scales.map Prod.fst ≠ [] := by decide

/-- Scale selection always returns a name of the scale table. -/
theorem selectScale_mem (input : String) (g : Nat → Nat) :
    (selectScale input g).1 ∈ scales.map Prod.fst := by
  rw [selectScale]
  by_cases h1 : strContains (lowerStr input) "minor" = true
  · rw [if_pos h1]; decide
  · rw [if_neg h1]
    by_cases h2 : strContains (lowerStr input) "major" = true
    · rw [if_pos h2]; decide
    · rw [if_neg h2]
      exact random_choice_mem g 0 scales_keys_nonempty

/-- Looking up any name of the scale table succeeds and yields a nonempty
scale beginning with C. -/
theorem scales_lookup_of_mem {k : String} (h : k ∈ scales.map Prod.fst) :
    ∃ scale, lookupTable scales k = some scale ∧ scale ≠ []
      ∧ scale.headD "" = "C" := by
  fin_cases h <;> exact ⟨_, rfl, by decide, rfl⟩

/-- The next unused oracle position after scale selection is at most 1. -/
theorem selectScale_pos_le (input : String) (g : Nat → Nat) :
    (selectScale input g).2 ≤ 1 := by
  rw [selectScale]
  by_cases h1 : strContains (lowerStr input) "minor" = true
  · rw [if_pos h1]; exact Nat.zero_le 1
  · rw [if_neg h1]
    by_cases h2 : strContains (lowerStr input) "major" = true
    · rw [if_pos h2]; exact Nat.zero_le 1
    · rw [if_neg h2]

/-- Scale selection depends on the oracle only through position 0. -/
theorem selectScale_congr (input : String) {g1 g2 : Nat → Nat}
    (h : g1 0 = g2 0) : selectScale input g1 = selectScale input g2 := by
  simp only [selectScale, random_choice, h]

/-- Melody creation depends on the oracle only through the positions it
draws at. -/
theorem create_melody_congr (scale : List String) (d : Nat)
    {g1 g2 : Nat → Nat} (pos : Nat)
    (h : ∀ i, i < d → g1 (pos + i) = g2 (pos + i)) :
    create_melody scale d g1 pos = create_melody scale d g2 pos := by
  unfold create_melody
  exact List.map_congr_left fun i hi => by
    rw [random_choice, random_choice, h i (List.mem_range.mp hi)]

/-- Chord-progression creation depends on the oracle only through the
positions it draws at. -/
theorem create_chord_progression_congr (d : Nat) {g1 g2 : Nat → Nat}
    (pos : Nat) (h : ∀ i, i < d → g1 (pos + i) = g2 (pos + i)) :
    create_chord_progression d g1 pos = create_chord_progression d g2 pos := by
  unfold create_chord_progression
  exact List.map_congr_left fun i hi => by
    rw [random_choice, random_choice, h i (List.mem_range.mp hi)]

/-- The number of notes returned by create_melody. -/
theorem create_melody_length (scale : List String) (d : Nat)
    (g : Nat → Nat) (pos : Nat) : (create_melody scale d g pos).length = d := by
  simp [create_melody]

/-- The number of chords returned by create_chord_progression. -/
theorem create_chord_progression_length (d : Nat) (g : Nat → Nat)
    (pos : Nat) : (create_chord_progression d g pos).length = d := by
  simp [create_chord_progression]

/-- Inversion of a successful midi_converter run: the state supplied both
dereferenced keys, both lookups succeeded, and the score is exactly the
assembled one. -/
theorem midi_converter_ok {s : MState} {g : Nat → Nat} {score : Score}
    (h : midi_converter s g = Except.ok score) :
    ∃ comp mi scale fc,
      s Key.composition = some comp
      ∧ s Key.musician_input = some mi
      ∧ lookupTable scales (selectScale mi g).1 = some scale
      ∧ lookupTable chords (finalChordName (selectScale mi g).1) = some fc
      ∧ score =
          { description := comp
            melody := create_melody scale 7 g (selectScale mi g).2
              ++ [{ pitch := scale.headD "" ++ "4", quarterLength := 1 }]
            harmony := create_chord_progression 7 g ((selectScale mi g).2 + 7)
              ++ [{ pitches := fc, quarterLength := 1 }]
            tempo := 60 } := by
  unfold midi_converter at h
  split at h
  · cases h
  next comp hc =>
    split at h
    · cases h
    next mi hm =>
      unfold convert_core at h
      split at h
      · cases h
      next scale hsc =>
        split at h
        · cases h
        next fc hfc =>
          cases h
          exact ⟨comp, mi, scale, fc, hc, hm, hsc, hfc, rfl⟩

/-- Every note returned by create_melody lasts one quarter note. -/
theorem create_melody_quarterLength (scale : List String) (d : Nat)
    (g : Nat → Nat) (pos : Nat) :
    ∀ n ∈ create_melody scale d g pos, n.quarterLength = 1 := by
  intro n hn
  simp only [create_melody, List.mem_map] at hn
  obtain ⟨i, _, rfl⟩ := hn
  rfl

/-- Every note returned by create_melody carries a pitch class of the
scale, at octave 4. -/
theorem create_melody_pitch_mem (scale : List String) (d : Nat)
    (g : Nat → Nat) (pos : Nat) (hne : scale ≠ []) :
    ∀ n ∈ create_melody scale d g pos, ∃ p ∈ scale, n.pitch = p ++ "4" := by
  intro n hn
  simp only [create_melody, List.mem_map] at hn
  obtain ⟨i, _, rfl⟩ := hn
  exact ⟨random_choice g (pos + i) scale, random_choice_mem g (pos + i) hne, rfl⟩

/-- Every chord returned by create_chord_progression lasts one quarter
note. -/
theorem create_chord_progression_quarterLength (d : Nat) (g : Nat → Nat)
    (pos : Nat) :
    ∀ c ∈ create_chord_progression d g pos, c.quarterLength = 1 := by
  intro c hc
  simp only [create_chord_progression, List.mem_map] at hc
  obtain ⟨i, _, rfl⟩ := hc
  rfl

/-- A successful melody_generator run writes under key melody. -/
theorem melody_generator_ok_key {llm : String → String} {s : MState}
    {k : Key} {v : String} (h : melody_generator llm s = Except.ok (k, v)) :
    k = Key.melody := by
  unfold melody_generator at h
  split at h
  · cases h
  · injection h with h'
    injection h' with hk hv
    exact hk.symm

/-- A successful harmony_creator run writes under key harmony. -/
theorem harmony_creator_ok_key {llm : String → String} {s : MState}
    {k : Key} {v : String} (h : harmony_creator llm s = Except.ok (k, v)) :
    k = Key.harmony := by
  unfold harmony_creator at h
  split at h
  · cases h
  · injection h with h'
    injection h' with hk hv
    exact hk.symm

/-- A successful rhythm_analyzer run writes under key rhythm. -/
theorem rhythm_analyzer_ok_key {llm : String → String} {s : MState}
    {k : Key} {v : String} (h : rhythm_analyzer llm s = Except.ok (k, v)) :
    k = Key.rhythm := by
  unfold rhythm_analyzer at h
  split at h
  · cases h
  split at h
  · cases h
  injection h with h'
  injection h' with hk hv
  exact hk.symm

/-- A successful style_adapter run writes under key composition. -/
theorem style_adapter_ok_key {llm : String → String} {s : MState}
    {k : Key} {v : String} (h : style_adapter llm s = Except.ok (k, v)) :
    k = Key.composition := by
  unfold style_adapter at h
  split at h
  · cases h
  split at h
  · cases h
  split at h
  · cases h
  split at h
  · cases h
  injection h with h'
  injection h' with hk hv
  exact hk.symm

/-- A successful midi_converter node run writes under key midi_file. -/
theorem midi_stage_ok_key {tmp : String} {s : MState} {g : Nat → Nat}
    {k : Key} {v : String} (h : midi_stage tmp s g = Except.ok (k, v)) :
    k = Key.midi_file := by
  unfold midi_stage at h
  split at h
  · cases h
  · injection h with h'
    injection h' with hk hv
    exact hk.symm

/-- On any successful midi_converter run, the final melody note is C4 and
the final harmony chord is rooted at C4. -/
theorem midi_converter_ok_final_notes {s : MState} {g : Nat → Nat}
    {score : Score} (h : midi_converter s g = Except.ok score) :
    score.melody.getLast? = some { pitch := "C4", quarterLength := 1 }
    ∧ ∃ c, score.harmony.getLast? = some c ∧ c.pitches.headD "" = "C4" := by
  obtain ⟨comp, mi, scale, fc, hc, hm, hsc, hfc, hscore⟩ := midi_converter_ok h
  subst hscore
  have h1 : scale.headD "" = "C" := scales_head_C _ (lookupTable_mem hsc)
  have h2 : fc.headD "" = "C4" := chords_head_C4 _ (lookupTable_mem hfc)
  constructor
  · show (create_melody scale 7 g (selectScale mi g).2
      ++ [({ pitch := scale.headD "" ++ "4", quarterLength := 1 } : MNote)]).getLast?
      = some { pitch := "C4", quarterLength := 1 }
    rw [List.getLast?_concat, h1]
    rfl
  · exact ⟨({ pitches := fc, quarterLength := 1 } : MChord),
      List.getLast?_concat _, h2⟩

/-! The claim theorems. -/

/-- C1: contrary to the claim, the engine performs no pre-flight
input-completeness validation and never raises a MissingInputError: a
missing key surfaces as a KeyError inside a stage body.  With style absent
the saved pipeline issues three external chat calls (melody, harmony,
rhythm) and then faults inside style_adapter on the style key; with the
claim's own example state (musician input and style, no scale key) the
executed pipeline faults inside melody_generator on the scale key, exactly
the crash recorded in the notebook. -/
theorem c1_engine_fails_inside_stage_not_preflight
    (llm : String → String) (g : Nat → Nat) (tmp : String) :
    runPipeline llm g tmp s_noStyle
      = Except.error ("style_adapter", "style", 3)
    ∧ runPipelineExecuted llm g tmp s_claimExample
      = Except.error ("melody_generator", "scale", 0) :=
  ⟨rfl, rfl⟩

/-- C2: for every scale name other than C major, C minor and C diminished
the constructed final-chord name has no chord-table entry, and — contrary
to the claim — the failed lookup is the raw, unclassified KeyError of a
Python dict access (modelled as the error carrying the missing key), not a
classified ChordLookupError: concretely, the C dorian selection aborts
midi_converter with the bare missing key C dorian. -/
theorem c2_final_chord_lookup_unclassified_fault :
    ((scales.map Prod.fst).filter
        (fun n => !(n == "C major") && !(n == "C minor")
          && !(n == "C diminished"))).all
      (fun n => (lookupTable chords (finalChordName n)).isNone) = true
    ∧ midi_converter s_plain (fun _ => 4) = Except.error "C dorian" :=
  ⟨by decide, rfl⟩

/-- C5: on every successful midi_converter run the harmony track and the
melody track have the same event count, that count is the fixed target
duration of 8 beats, and every event lasts exactly 1 beat. -/
theorem c5_track_lengths_match (s : MState) (g : Nat → Nat) (score : Score)
    (h : midi_converter s g = Except.ok score) :
    score.harmony.length = score.melody.length
    ∧ score.melody.length = 8
    ∧ (∀ n ∈ score.melody, n.quarterLength = 1)
    ∧ (∀ c ∈ score.harmony, c.quarterLength = 1) := by
  obtain ⟨comp, mi, scale, fc, hc, hm, hsc, hfc, hscore⟩ := midi_converter_ok h
  subst hscore
  refine ⟨?_, ?_, ?_, ?_⟩
  · simp [create_melody_length, create_chord_progression_length]
  · simp [create_melody_length]
  · intro n hn
    rcases List.mem_append.mp hn with hn | hn
    · exact create_melody_quarterLength _ _ _ _ n hn
    · rw [List.mem_singleton.mp hn]
  · intro c hcmem
    rcases List.mem_append.mp hcmem with hcmem | hcmem
    · exact create_chord_progression_quarterLength _ _ _ c hcmem
    · rw [List.mem_singleton.mp hcmem]

/-- C5 witness: the conclusion holds on the concrete C minor run with the
all-zero oracle. -/
theorem c5_witness :
    score_cminor.harmony.length = score_cminor.melody.length
    ∧ score_cminor.melody.length = 8
    ∧ (∀ n ∈ score_cminor.melody, n.quarterLength = 1)
    ∧ (∀ c ∈ score_cminor.harmony, c.quarterLength = 1) :=
  c5_track_lengths_match s_cminor gzero score_cminor rfl

/-- C6: the tempo marking serialized into the score equals 60 beats per
minute on every successful run; the code hard-codes the metronome mark, so
every caller leaves the tempo unspecified and receives the default of 60. -/
theorem c6_tempo_always_default_60 (s : MState) (g : Nat → Nat)
    (score : Score) (h : midi_converter s g = Except.ok score) :
    score.tempo = 60 := by
  obtain ⟨comp, mi, scale, fc, hc, hm, hsc, hfc, hscore⟩ := midi_converter_ok h
  subst hscore
  rfl

/-- C6 witness: the tempo of the concrete C minor run is 60. -/
theorem c6_witness : score_cminor.tempo = 60 :=
  c6_tempo_always_default_60 s_cminor gzero score_cminor rfl

/-- C7: midi_converter consumes at most the first 15 draws of the oracle,
so two encoder runs on identical inputs whose oracles (seeded generators)
agree on that prefix produce identical scores, hence byte-identical
serialized files. -/
theorem c7_fixed_seed_determinism (s : MState) (g1 g2 : Nat → Nat)
    (h : ∀ i, i < 15 → g1 i = g2 i) :
    midi_converter s g1 = midi_converter s g2 := by
  have hcore : ∀ comp mi : String, convert_core comp mi g1 = convert_core comp mi g2 := by
    intro comp mi
    have hsel : selectScale mi g1 = selectScale mi g2 :=
      selectScale_congr mi (h 0 (by omega))
    have hpos : (selectScale mi g2).2 ≤ 1 := selectScale_pos_le mi g2
    unfold convert_core
    rw [hsel]
    split
    next heq => rfl
    next scale heq =>
      rw [create_melody_congr scale 7 (selectScale mi g2).2
            (fun i hi => h _ (by omega)),
          create_chord_progression_congr 7 ((selectScale mi g2).2 + 7)
            (fun i hi => h _ (by omega))]
  unfold midi_converter
  cases s Key.composition with
  | none => rfl
  | some comp =>
      cases s Key.musician_input with
      | none => rfl
      | some mi => exact hcore comp mi

/-- C7 witness: the oracles gzero and gshift agree below position 15 (and
differ above), and the concrete C minor runs under them coincide. -/
theorem c7_witness : midi_converter s_cminor gzero = midi_converter s_cminor gshift :=
  c7_fixed_seed_determinism s_cminor gzero gshift (by decide)

/-- C10: the symmetric-diminished scale C diminished has an
identically-named chord-table entry, so the final-beat chord lookup
succeeds and harmony finalization completes without error for a scale
outside the canonical major and minor scales: the whole encoder run
selecting C diminished returns a score. -/
theorem c10_diminished_final_chord_lookup_succeeds :
    lookupTable chords (finalChordName "C diminished")
      = some ["C4", "Eb4", "Gb4"]
    ∧ ("C diminished", ["C", "D", "Eb", "F", "Gb", "Ab", "A", "B"]) ∈ scales
    ∧ ("C diminished" ≠ "C major" ∧ "C diminished" ≠ "C minor")
    ∧ ∃ score, midi_converter s_plain (fun _ => 10) = Except.ok score :=
  ⟨by decide, by decide, by decide, ⟨_, rfl⟩⟩

/-- C3: for every scale of the table and every total duration D of at
least 1, the melody track built as in midi_converter — D-1 sampled notes
followed by the fixed final root note — has exactly D notes, every note
lasts 1 beat and carries a pitch class of the scale at octave 4, and the
final note carries the first (root) pitch class of the scale.  The source
fixes D-1 = 7 at the call site; the construction itself is
duration-generic. -/
theorem c3_melody_track_wellformed (name : String) (scale : List String)
    (h : lookupTable scales name = some scale) (D : Nat) (hD : 1 ≤ D)
    (g : Nat → Nat) (pos : Nat) :
    (create_melody scale (D - 1) g pos
        ++ [({ pitch := scale.headD "" ++ "4", quarterLength := 1 } : MNote)]).length = D
    ∧ (∀ n ∈ create_melody scale (D - 1) g pos
          ++ [({ pitch := scale.headD "" ++ "4", quarterLength := 1 } : MNote)],
        n.quarterLength = 1 ∧ ∃ p ∈ scale, n.pitch = p ++ "4")
    ∧ (create_melody scale (D - 1) g pos
        ++ [({ pitch := scale.headD "" ++ "4", quarterLength := 1 } : MNote)]).getLast?
      = some { pitch := scale.headD "" ++ "4", quarterLength := 1 }
    ∧ scale.headD "" ∈ scale := by
  have hne : scale ≠ [] := scales_values_nonempty _ (lookupTable_mem h)
  refine ⟨?_, ?_, ?_, ?_⟩
  · rw [List.length_append, create_melody_length]
    simp
    omega
  · intro n hn
    rcases List.mem_append.mp hn with hn | hn
    · exact ⟨create_melody_quarterLength _ _ _ _ n hn,
        create_melody_pitch_mem _ _ _ _ hne n hn⟩
    · rw [List.mem_singleton.mp hn]
      exact ⟨rfl, scale.headD "", headD_mem "" hne, rfl⟩
  · exact List.getLast?_concat _
  · exact headD_mem "" hne

/-- C3 witness: the conclusion holds for the C major scale, total duration
8, the all-zero oracle and draw position 1. -/
theorem c3_witness :
    (create_melody ["C", "D", "E", "F", "G", "A", "B"] (8 - 1) gzero 1
        ++ [({ pitch := List.headD ["C", "D", "E", "F", "G", "A", "B"] "" ++ "4",
               quarterLength := 1 } : MNote)]).length = 8
    ∧ List.headD ["C", "D", "E", "F", "G", "A", "B"] ""
        ∈ ["C", "D", "E", "F", "G", "A", "B"] :=
  ⟨(c3_melody_track_wellformed "C major" ["C", "D", "E", "F", "G", "A", "B"]
      rfl 8 (by decide) gzero 1).1,
   (c3_melody_track_wellformed "C major" ["C", "D", "E", "F", "G", "A", "B"]
      rfl 8 (by decide) gzero 1).2.2.2⟩

/-- When the lowered input contains neither minor nor major, scale
selection draws from the full table of scale names. -/
theorem selectScale_random (input : String) (g : Nat → Nat)
    (h1 : strContains (lowerStr input) "minor" = false)
    (h2 : strContains (lowerStr input) "major" = false) :
    selectScale input g = (random_choice g 0 (scales.map Prod.fst), 1) := by
  rw [selectScale, if_neg (by simp [h1]), if_neg (by simp [h2])]

/-- C4: scale selection scans the lowered musician input: a minor
substring deterministically selects C minor, else a major substring
selects C major, else the scale is drawn from the full scale table (every
name of the table being attainable by some draw); in particular the input
"Create a happy piece in C minor" deterministically selects C minor and
the resulting melody ends on pitch class C. -/
theorem c4_scale_selection_heuristic (input : String) (g : Nat → Nat) :
    (strContains (lowerStr input) "minor" = true →
      selectScale input g = ("C minor", 0))
    ∧ (strContains (lowerStr input) "minor" = false →
        strContains (lowerStr input) "major" = true →
      selectScale input g = ("C major", 0))
    ∧ (strContains (lowerStr input) "minor" = false →
        strContains (lowerStr input) "major" = false →
      (selectScale input g).1 ∈ scales.map Prod.fst
      ∧ ∀ k ∈ scales.map Prod.fst, ∃ g2 : Nat → Nat,
          (selectScale input g2).1 = k)
    ∧ selectScale "Create a happy piece in C minor" g = ("C minor", 0)
    ∧ ∀ score : Score, midi_converter s_cminor g = Except.ok score →
        score.melody.getLast? = some { pitch := "C4", quarterLength := 1 } := by
  refine ⟨?_, ?_, ?_, ?_, ?_⟩
  · intro h1
    rw [selectScale, if_pos h1]
  · intro h1 h2
    rw [selectScale, if_neg (by simp [h1]), if_pos h2]
  · intro h1 h2
    constructor
    · exact selectScale_mem input g
    · intro k hk
      fin_cases hk
      · exact ⟨fun _ => 0, by rw [selectScale_random input _ h1 h2]; decide⟩
      · exact ⟨fun _ => 1, by rw [selectScale_random input _ h1 h2]; decide⟩
      · exact ⟨fun _ => 2, by rw [selectScale_random input _ h1 h2]; decide⟩
      · exact ⟨fun _ => 3, by rw [selectScale_random input _ h1 h2]; decide⟩
      · exact ⟨fun _ => 4, by rw [selectScale_random input _ h1 h2]; decide⟩
      · exact ⟨fun _ => 5, by rw [selectScale_random input _ h1 h2]; decide⟩
      · exact ⟨fun _ => 6, by rw [selectScale_random input _ h1 h2]; decide⟩
      · exact ⟨fun _ => 7, by rw [selectScale_random input _ h1 h2]; decide⟩
      · exact ⟨fun _ => 8, by rw [selectScale_random input _ h1 h2]; decide⟩
      · exact ⟨fun _ => 9, by rw [selectScale_random input _ h1 h2]; decide⟩
      · exact ⟨fun _ => 10, by rw [selectScale_random input _ h1 h2]; decide⟩
  · rw [selectScale, if_pos (by decide)]
  · intro score h
    exact (midi_converter_ok_final_notes h).1

/-- C4 witness: an input containing the substring minor selects C minor
deterministically. -/
theorem c4_witness : selectScale "something minor" gzero = ("C minor", 0) :=
  (c4_scale_selection_heuristic "something minor" gzero).1 (by decide)

/-- C8: a successful pipeline run writes exactly the five owned keys, one
per stage, in pipeline order melody, harmony, rhythm, composition,
midi_file, each stage merging only its own key into the state; every key
outside this list, in particular the caller-supplied inputs, is left
untouched, so the state is append-only within one run. -/
theorem c8_state_written_in_pipeline_order (llm : String → String)
    (g : Nat → Nat) (tmp : String) (s out : MState)
    (h : runPipeline llm g tmp s = Except.ok out) :
    (∃ v1 v2 v3 v4 v5,
      out = setK Key.midi_file v5 (setK Key.composition v4 (setK Key.rhythm v3
              (setK Key.harmony v2 (setK Key.melody v1 s)))))
    ∧ ∀ k : Key, k ≠ Key.melody → k ≠ Key.harmony → k ≠ Key.rhythm →
        k ≠ Key.composition → k ≠ Key.midi_file → out k = s k := by
  unfold runPipeline runPipelineWith at h
  split at h
  · cases h
  next k1 v1 h1 =>
    have hk1 : k1 = Key.melody := melody_generator_ok_key h1
    subst hk1
    split at h
    · cases h
    next k2 v2 h2 =>
      have hk2 : k2 = Key.harmony := harmony_creator_ok_key h2
      subst hk2
      split at h
      · cases h
      next k3 v3 h3 =>
        have hk3 : k3 = Key.rhythm := rhythm_analyzer_ok_key h3
        subst hk3
        split at h
        · cases h
        next k4 v4 h4 =>
          have hk4 : k4 = Key.composition := style_adapter_ok_key h4
          subst hk4
          split at h
          · cases h
          next k5 v5 h5 =>
            have hk5 : k5 = Key.midi_file := midi_stage_ok_key h5
            subst hk5
            cases h
            constructor
            · exact ⟨v1, v2, v3, v4, v5, rfl⟩
            · intro k n1 n2 n3 n4 n5
              simp [setK, n1, n2, n3, n4, n5]

/-- C8 witness: the conclusion holds on the concrete successful run with
the fixed chat stand-in, the all-zero oracle and path t.mid. -/
theorem c8_witness :
    (∃ v1 v2 v3 v4 v5,
      out_run = setK Key.midi_file v5 (setK Key.composition v4 (setK Key.rhythm v3
              (setK Key.harmony v2 (setK Key.melody v1 s_run)))))
    ∧ ∀ k : Key, k ≠ Key.melody → k ≠ Key.harmony → k ≠ Key.rhythm →
        k ≠ Key.composition → k ≠ Key.midi_file → out_run k = s_run k :=
  c8_state_written_in_pipeline_order llm_fixed gzero "t.mid" s_run out_run rfl

/-- C9: every scale of the scale table and every chord of the chord table
is rooted at pitch class C, scale selection always yields a scale of the
table (hence C-rooted) for every musician input and every draw, and on
every successful encoder run the final melody note is C4 and the final
harmony chord is rooted at C4. -/
theorem c9_everything_rooted_at_C :
    (∀ p ∈ scales, p.2.headD "" = "C")
    ∧ (∀ p ∈ chords, p.2.headD "" = "C4")
    ∧ (∀ (input : String) (g : Nat → Nat), ∃ scale,
        lookupTable scales (selectScale input g).1 = some scale
        ∧ scale.headD "" = "C")
    ∧ ∀ (s : MState) (g : Nat → Nat) (score : Score),
        midi_converter s g = Except.ok score →
        score.melody.getLast? = some { pitch := "C4", quarterLength := 1 }
        ∧ ∃ c, score.harmony.getLast? = some c ∧ c.pitches.headD "" = "C4" := by
  refine ⟨scales_head_C, chords_head_C4, ?_, ?_⟩
  · intro input g
    obtain ⟨scale, hsc, _, hhead⟩ := scales_lookup_of_mem (selectScale_mem input g)
    exact ⟨scale, hsc, hhead⟩
  · intro s g score h
    exact midi_converter_ok_final_notes h

/-- C9 witness: the final-note conclusions hold on the concrete C minor
run with the all-zero oracle. -/
theorem c9_witness :
    score_cminor.melody.getLast? = some { pitch := "C4", quarterLength := 1 }
    ∧ ∃ c, score_cminor.harmony.getLast? = some c
        ∧ c.pitches.headD "" = "C4" :=
  c9_everything_rooted_at_C.2.2.2 s_cminor gzero score_cminor rfl

end MusicCompositor
